import Mathlib

/-!
NeuronAI streaming pipeline — verification development

Shallow embedding, in Lean 4, of the parts of the NeuronAI repository
that the specification's testable properties are about:

* the Connection Hub (`backend/go/internal/websocket/hub.go`):
  hub registry state, the `Run` event loop's register / unregister /
  broadcast cases, the `readPump` identity stamping, `handleMessage`
  forwarding and `writePump` frame flushing;
* the Streaming Bridge (`backend/go/internal/grpc/client.go`):
  `StreamClient.Recv` projecting the chat payload out of a
  `StreamResponse`;
* the REST gateway handlers (`backend/go/internal/api`):
  `Handler.Chat` and `Handler.StreamChat` identity overwriting;
* the Python orchestrator (`docs` copy of
  `src/neuronai/agents/orchestrator.py`): `stream_chat` and
  `_determine_agents`;
* the Flutter client's message parser
  (`frontend/lib/services/websocket_service.dart`): one `jsonDecode`
  per received WebSocket message, dropping frames that are not a JSON
  object.

Go byte strings that flow through marshalling are modelled as `List Char`;
identifier-like strings that are only compared are modelled as `String`.
Bounded Go channels are modelled as explicit queues (`List`) with a
capacity; `close` events are recorded in a list so that double closes are
observable.
-/

set_option autoImplicit false
set_option maxRecDepth 4000

namespace NeuronAI

/-! ## Connection Hub registry (hub.go)

`Client` in hub.go holds a pointer identity, the authenticated
`userID`/`sessionID` and a buffered outbound channel `send` of capacity
256.  The Go map `clients map[*Client]bool` keyed by pointer is modelled
as a list of clients carrying a numeric `id` standing for the pointer. -/

/-- One live WebSocket client as stored in the hub registry
(`Client` struct of hub.go).  `queue` is the current content of the
buffered `send` channel, `capacity` its buffer size (256 in the source). -/
structure HubClient where
  id : Nat
  userID : String
  sessionID : String
  queue : List (List Char)
  capacity : Nat
  deriving Repr, DecidableEq

/-- The hub registry: the `clients` map of hub.go plus the history of
`close(client.send)` events (each recorded close appends the client id),
which makes duplicate closes observable. -/
structure HubState where
  clients : List HubClient
  closedIds : List Nat
  deriving Repr, DecidableEq

/-- The `h.register` case of `Hub.Run`: `h.clients[client] = true`. -/
def registerStep (st : HubState) (c : HubClient) : HubState :=
  { st with clients := st.clients ++ [c] }

/-- The `h.unregister` case of `Hub.Run`:
`if _, ok := h.clients[client]; ok { delete(h.clients, client); close(client.send) }`. -/
def unregisterStep (st : HubState) (cid : Nat) : HubState :=
  if st.clients.any (fun c => c.id == cid) then
    { clients := st.clients.filter (fun c => c.id != cid),
      closedIds := st.closedIds ++ [cid] }
  else st

/-- The `h.broadcast` case of `Hub.Run`: for every client in the map, a
non-blocking send of `m` onto `client.send` (succeeds exactly when the
buffer is not full); on a full buffer the client is closed and deleted.
No session filtering appears in the source loop. -/
def broadcastStep (st : HubState) (m : List Char) : HubState :=
  { clients := st.clients.filterMap (fun c =>
      if c.queue.length < c.capacity then some { c with queue := c.queue ++ [m] }
      else none),
    closedIds := st.closedIds ++
      ((st.clients.filter (fun c => ¬ c.queue.length < c.capacity)).map (·.id)) }

/-- Effect on the hub registry of a read error on connection `cid`:
`readPump`'s deferred `c.hub.unregister <- c` (hub.go lines 121-125). -/
def readPumpError (st : HubState) (cid : Nat) : HubState :=
  unregisterStep st cid

/-! ## WebSocket upgrade handshake (`Hub.HandleWebSocket`) -/

/-- Outcome of `Hub.HandleWebSocket`. -/
inductive WSResult where
  /-- Rejected: `http.Error(w, msg, status)` issued before any `Client` is created. -/
  | rejected (status : Nat) (msg : String)
  /-- Upgrade failed: `upgrader.Upgrade` returned an error; no client is registered. -/
  | upgradeError
  /-- A `Client` built from the query parameters was sent to `h.register`. -/
  | registered (userID sessionID : String)
  deriving Repr, DecidableEq

/-- Model of `Hub.HandleWebSocket`: reads `user_id` and `session_id` from the
query, rejects with HTTP 400 when either is empty, otherwise upgrades
(`upgradeOk` abstracts the transport-level upgrade succeeding) and
registers a client carrying exactly those two identifiers. -/
def handleWebSocket (user_id session_id : String) (upgradeOk : Bool) : WSResult :=
  if user_id = "" ∨ session_id = "" then
    .rejected 400 "Missing user_id or session_id"
  else if upgradeOk then
    .registered user_id session_id
  else
    .upgradeError

/-! ## Inbound frame stamping (`Client.readPump`) -/

/-- The `MessageType` enum of the protobuf contract. -/
inductive MessageType where
  | unspecified | text | image | video | code
  deriving Repr, DecidableEq

/-- The `pb.ChatRequest` as populated by `json.Unmarshal` in `readPump` and
by the handlers: session/user identifiers, content, message type and
metadata. -/
structure PbChatRequest where
  sessionId : String
  userId : String
  content : String
  messageType : MessageType
  metadata : List (String × String)
  deriving Repr, DecidableEq

/-- hub.go lines 149-150: after unmarshalling an inbound frame,
`req.UserId = c.userID; req.SessionId = c.sessionID` — the connection's
authenticated identity replaces whatever the client supplied. -/
def stampRequest (userID sessionID : String) (req : PbChatRequest) : PbChatRequest :=
  { req with userId := userID, sessionId := sessionID }

/-! ## REST gateway handlers (`Handler.Chat`, `Handler.StreamChat`) -/

/-- The JSON request body decoded by the gateway handlers
(`api.ChatRequest`). -/
structure ApiChatRequest where
  sessionId : String
  userId : String
  content : String
  messageType : String
  metadata : List (String × String)
  deriving Repr, DecidableEq

/-- The internal `grpc.ChatRequest` struct built by `Handler.Chat`. -/
structure GrpcChatRequest where
  sessionId : String
  userId : String
  content : String
  messageType : String
  metadata : List (String × String)
  deriving Repr, DecidableEq

/-- Model of `Handler.Chat`: `req.UserID = claims.UserID` followed by building
`grpc.ChatRequest` field by field from the (stamped) body. -/
def chatHandlerForward (claimsUserID : String) (body : ApiChatRequest) : GrpcChatRequest :=
  let req := { body with userId := claimsUserID }
  { sessionId := req.sessionId
    userId := req.userId
    content := req.content
    messageType := req.messageType
    metadata := req.metadata }

/-- The `switch req.MessageType` of `Handler.StreamChat` (and of
`PythonClient.ProcessChat`): the four known strings map to their enum
values, anything else (including the empty string) leaves the zero value. -/
def msgTypeToEnum (s : String) : MessageType :=
  if s = "text" then .text
  else if s = "image" then .image
  else if s = "video" then .video
  else if s = "code" then .code
  else .unspecified

/-- Model of `Handler.StreamChat`: `req.UserID = claims.UserID` followed by
building the `pb.ChatRequest` sent on the stream. -/
def streamChatHandlerForward (claimsUserID : String) (body : ApiChatRequest) : PbChatRequest :=
  { sessionId := body.sessionId
    userId := claimsUserID
    content := body.content
    messageType := msgTypeToEnum body.messageType
    metadata := body.metadata }

/-! ## Orchestrator (Python, `src/neuronai/agents/orchestrator.py`) -/

/-- The `AgentType` enum of orchestrator.py. -/
inductive AgentType where
  | orchestrator | researcher | writer | code | image
  deriving Repr, DecidableEq

/-- One item yielded by `Orchestrator.stream_chat`:
`{"chunk": ..., "is_final": ...}`. -/
structure PyFragment where
  chunk : List Char
  isFinal : Bool
  deriving Repr, DecidableEq

/-- Model of `Orchestrator.stream_chat`: yields one non-final fragment per LLM
chunk, then a single `{"chunk": "", "is_final": True}` fragment.
`chunks` is the sequence produced by `llm_client.stream_completion`. -/
def stream_chat (chunks : List (List Char)) : List PyFragment :=
  chunks.map (fun c => { chunk := c, isFinal := false }) ++ [{ chunk := [], isFinal := true }]

/-- Substring search on character lists (used by the keyword heuristics). -/
def listPrefixOf : List Char → List Char → Bool
  | [], _ => true
  | _ :: _, [] => false
  | a :: as, b :: bs => a == b && listPrefixOf as bs

/-- Predicate `hasSub needle hay` holds when `needle` occurs contiguously in `hay`. -/
def hasSub (needle : List Char) : List Char → Bool
  | [] => listPrefixOf needle []
  | hay@(_ :: rest) => listPrefixOf needle hay || hasSub needle rest

/-- Modelled from the spec: `Orchestrator._is_research_query` is absent
from the source tree; the spec describes deterministic keyword/content
heuristics with "an open-ended question → research agent". -/
def isResearchQuery (content : String) : Bool :=
  hasSub "research".toList content.toList || hasSub "search".toList content.toList ||
  hasSub "what is".toList content.toList || hasSub "?".toList content.toList

/-- Modelled from the spec: `Orchestrator._is_code_query` is absent from
the source tree; the spec describes deterministic keyword/content
heuristics with "presence of a code-like payload → code agent". -/
def isCodeQuery (content : String) : Bool :=
  hasSub "code".toList content.toList || hasSub "function".toList content.toList ||
  hasSub "program".toList content.toList || hasSub "script".toList content.toList

/-- Modelled from the spec: `Orchestrator._is_image_query` is absent from
the source tree; the spec describes deterministic keyword/content
heuristics with "an explicit image intent → image agent". -/
def isImageQuery (content : String) : Bool :=
  hasSub "image".toList content.toList || hasSub "picture".toList content.toList ||
  hasSub "draw".toList content.toList

/-- Model of `Orchestrator._determine_agents`: start from `[ORCHESTRATOR]`, append
`RESEARCHER` / `CODE` / `IMAGE` when the corresponding classification
predicate fires, and finish with `WRITER`. -/
def determineAgents (content : String) : List AgentType :=
  [AgentType.orchestrator]
    ++ (if isResearchQuery content then [AgentType.researcher] else [])
    ++ (if isCodeQuery content then [AgentType.code] else [])
    ++ (if isImageQuery content then [AgentType.image] else [])
    ++ [AgentType.writer]

/-! ## JSON wire model

`Client.handleMessage` serializes each received `*pb.ChatResponse` with
`json.Marshal` and the Flutter client deserializes each WebSocket
message with a single `jsonDecode`.  The marshaller below renders the
string fields of the response with the JSON string escapes relevant to
the pipeline (`"`, `\`, and the newline that `writePump` uses as a
batch separator); the parser is a recursive-descent JSON reader for
the fragment grammar (null, booleans, strings, flat objects), rejecting
input with trailing non-whitespace exactly as `jsonDecode` does.
Enum-valued response fields (agent type, status) are orthogonal to the
delivery claims and are omitted from the rendered object. -/

/-- JSON escape of one character. -/
def escapeChar (c : Char) : List Char :=
  if c = '"' then ['\\', '"']
  else if c = '\\' then ['\\', '\\']
  else if c = '\n' then ['\\', 'n']
  else [c]

/-- JSON escape of a string body. -/
def escapeList : List Char → List Char
  | [] => []
  | c :: s => escapeChar c ++ escapeList s

/-- A JSON string literal: quotes around the escaped body. -/
def quoteStr (s : List Char) : List Char :=
  '"' :: (escapeList s ++ ['"'])

def nullChars : List Char := ['n', 'u', 'l', 'l']
def trueChars : List Char := ['t', 'r', 'u', 'e']
def falseChars : List Char := ['f', 'a', 'l', 's', 'e']

/-- Rendering of a JSON boolean. -/
def boolChars (b : Bool) : List Char :=
  if b then trueChars else falseChars

/-- Scalar JSON values occurring in the wire frames. -/
inductive JVal where
  | vnull
  | vbool (b : Bool)
  | vstr (s : List Char)
  deriving Repr, DecidableEq

/-- A decoded JSON document: a scalar or a flat object. -/
inductive Json where
  | top (v : JVal)
  | obj (fields : List (List Char × JVal))
  deriving Repr, DecidableEq

/-- Unescape of the character following a backslash. -/
def unescapeChar (e : Char) : Option Char :=
  if e = '"' then some '"'
  else if e = '\\' then some '\\'
  else if e = 'n' then some '\n'
  else none

/-- Read a JSON string body up to the closing quote, undoing escapes;
fuel-indexed so that the reader is structurally recursive.  Raw control
characters (the newline inserted between batched messages) are rejected
inside strings, as in JSON. -/
def parseStringBody : Nat → List Char → Option (List Char × List Char)
  | 0, _ => none
  | _ + 1, [] => none
  | fuel + 1, c :: rest =>
    if c = '"' then some ([], rest)
    else if c = '\\' then
      match rest with
      | [] => none
      | e :: rest2 =>
        match unescapeChar e with
        | none => none
        | some d => (parseStringBody fuel rest2).map (fun p => (d :: p.1, p.2))
    else if c = '\n' then none
    else (parseStringBody fuel rest).map (fun p => (c :: p.1, p.2))

/-- Read one scalar JSON value. -/
def parseVal (fuel : Nat) : List Char → Option (JVal × List Char)
  | 'n' :: 'u' :: 'l' :: 'l' :: rest => some (.vnull, rest)
  | 't' :: 'r' :: 'u' :: 'e' :: rest => some (.vbool true, rest)
  | 'f' :: 'a' :: 'l' :: 's' :: 'e' :: rest => some (.vbool false, rest)
  | '"' :: rest => (parseStringBody fuel rest).map (fun p => (.vstr p.1, p.2))
  | _ => none

/-- Read the fields of a flat JSON object after the opening brace, up to
and including the closing brace. -/
def parseFields : Nat → List Char → Option (List (List Char × JVal) × List Char)
  | 0, _ => none
  | fuel + 1, s =>
    match s with
    | '"' :: rest =>
      match parseStringBody (fuel + 1) rest with
      | none => none
      | some (key, r1) =>
        match r1 with
        | ':' :: r2 =>
          match parseVal (fuel + 1) r2 with
          | none => none
          | some (v, r3) =>
            match r3 with
            | ',' :: r4 => (parseFields fuel r4).map (fun p => ((key, v) :: p.1, p.2))
            | '}' :: r4 => some ([(key, v)], r4)
            | _ => none
        | _ => none
    | _ => none

/-- JSON whitespace, permitted (and ignored) after the document. -/
def allWs (s : List Char) : Bool :=
  s.all (fun c => c == ' ' || c == '\n' || c == '\t' || c == '\r')

/-- Model of `jsonDecode`: parse one complete JSON document; anything but trailing
whitespace after the first document is an error. -/
def parseJson (s : List Char) : Option Json :=
  match s with
  | '{' :: rest =>
    match parseFields (rest.length + 1) rest with
    | some (fs, r) => if allWs r then some (.obj fs) else none
    | none => none
  | _ =>
    match parseVal (s.length + 1) s with
    | some (v, r) => if allWs r then some (.top v) else none
    | none => none

/-- The client's message parser (`WebSocketService.connect`):
`jsonDecode(message) as Map<String, dynamic>` inside a try/catch — a
frame decodes to a message only when it is a single JSON object;
anything else is swallowed by the catch and dropped. -/
def clientParseFrame (s : List Char) : Option (List (List Char × JVal)) :=
  match parseJson s with
  | some (.obj fs) => some fs
  | _ => none

/-! ## Streaming pipeline (`grpc/client.go`, `hub.go`, frontend) -/

/-- The `pb.ChatResponse` as marshalled by `Client.handleMessage` (string
fields and the finality flag; enum fields omitted, see above). -/
structure ChatResponse where
  messageId : List Char
  sessionId : List Char
  content : List Char
  isFinal : Bool
  deriving Repr, DecidableEq

/-- The rendered field list of a marshalled `ChatResponse`. -/
def chatBody (r : ChatResponse) : List Char :=
  quoteStr "message_id".toList ++ ':' :: (quoteStr r.messageId ++ ',' ::
    (quoteStr "session_id".toList ++ ':' :: (quoteStr r.sessionId ++ ',' ::
      (quoteStr "content".toList ++ ':' :: (quoteStr r.content ++ ',' ::
        (quoteStr "is_final".toList ++ ':' :: (boolChars r.isFinal ++ ['}'])))))))

/-- Rendering by `json.Marshal` of a non-nil `*pb.ChatResponse`. -/
def marshalChat (r : ChatResponse) : List Char :=
  '{' :: chatBody r

/-- The decoded object a marshalled `ChatResponse` denotes. -/
def chatFields (r : ChatResponse) : List (List Char × JVal) :=
  [("message_id".toList, .vstr r.messageId),
   ("session_id".toList, .vstr r.sessionId),
   ("content".toList, .vstr r.content),
   ("is_final".toList, .vbool r.isFinal)]

/-- gRPC `StreamResponse` (server→client stream frame): session id, an
optional chat payload (the `oneof`), and the keepalive flag. -/
structure StreamResponse where
  sessionId : List Char
  chat : Option ChatResponse
  isHeartbeat : Bool
  deriving Repr, DecidableEq

/-- Model of `StreamClient.Recv` (grpc/client.go): on a successful receive it
returns `resp.GetChat()` — the chat payload, which is `nil` whenever the
frame carries no chat payload (in particular for a heartbeat frame). -/
def streamRecv (r : StreamResponse) : Option ChatResponse :=
  r.chat

/-- Model of `json.Marshal(resp)` in `Client.handleMessage`: Go marshals a nil
`*pb.ChatResponse` as the JSON literal `null`. -/
def marshalRecv : Option ChatResponse → List Char
  | none => nullChars
  | some r => marshalChat r

/-- One iteration of `Client.handleMessage`'s receive loop: the received
frame's chat payload is marshalled and enqueued on `c.send`. -/
def handleMessageEnqueue (queue : List (List Char)) (r : StreamResponse) : List (List Char) :=
  queue ++ [marshalRecv (streamRecv r)]

/-- Model of `Client.handleMessage` over a received frame sequence: one enqueued
message per frame, in receive order. -/
def handleMessageAll (rs : List StreamResponse) : List (List Char) :=
  rs.map (fun r => marshalRecv (streamRecv r))

/-- One wake-up of `Client.writePump` (hub.go lines 189-209): it writes
the message it received from `c.send` and then drains the
`n := len(c.send)` messages pending at that moment into the same
WebSocket text message, each preceded by `'\n'`.  A batch is the
nonempty group of messages coalesced into one frame by one wake-up. -/
def flushFrame (batch : List (List Char)) : List Char :=
  (batch.intersperse ['\n']).flatten

/-- Model of `Client.writePump` under a flush schedule: the queued messages reach
the socket partitioned into batches, one WebSocket text message per
batch. -/
def writePumpFrames (batches : List (List (List Char))) : List (List Char) :=
  batches.map flushFrame

/-- The schedule in which every queued message is flushed in its own
WebSocket message (the write pump always finds `len(c.send) = 0`). -/
def singletonBatches (msgs : List (List Char)) : List (List (List Char)) :=
  msgs.map (fun m => [m])

/-- The messages surfaced on the client's message stream: one decoded
map per WebSocket frame that parses as a JSON object. -/
def clientMessages (frames : List (List Char)) : List (List (List Char × JVal)) :=
  frames.filterMap clientParseFrame

/-- The `content` field of a decoded frame, when it is a string. -/
def contentOf (fields : List (List Char × JVal)) : Option (List Char) :=
  match fields.lookup "content".toList with
  | some (.vstr s) => some s
  | _ => none

/-- The ordered content reconstructed by the client from the received
WebSocket frames. -/
def deliveredContents (frames : List (List Char)) : List (List Char) :=
  (clientMessages frames).filterMap contentOf

/-- Modelled from the spec: `_build_stream_response` (the Python gRPC
server's fragment-to-frame conversion) is absent from the source tree;
per the spec's framing contract (§4.2) each outbound unit is a
non-heartbeat frame carrying the fragment payload and its finality. -/
def fragmentFrame (sid mid : List Char) (f : PyFragment) : StreamResponse :=
  { sessionId := sid
    chat := some { messageId := mid, sessionId := sid, content := f.chunk, isFinal := f.isFinal }
    isHeartbeat := false }

/-! ## Parser / printer lemmas for the JSON wire model -/

theorem escapeList_cons (c : Char) (s : List Char) :
    escapeList (c :: s) = escapeChar c ++ escapeList s := rfl

theorem parseStringBody_escape (s : List Char) :
    ∀ (fuel : Nat) (rest : List Char), (escapeList s).length < fuel →
      parseStringBody fuel (escapeList s ++ '"' :: rest) = some (s, rest) := by
  induction s with
  | nil =>
    intro fuel rest h
    cases fuel with
    | zero => omega
    | succ f => simp [escapeList, parseStringBody]
  | cons c s ih =>
    intro fuel rest h
    rw [escapeList_cons] at h ⊢
    by_cases h1 : c = '"'
    · subst h1
      have he : escapeChar '"' = ['\\', '"'] := by decide
      rw [he] at h ⊢
      cases fuel with
      | zero => omega
      | succ f =>
        have hf : (escapeList s).length < f := by
          simp only [List.length_append, List.length_cons] at h; omega
        simp only [List.cons_append, List.append_assoc, List.nil_append]
        simp [parseStringBody, unescapeChar, ih f rest hf]
    · by_cases h2 : c = '\\'
      · subst h2
        have he : escapeChar '\\' = ['\\', '\\'] := by decide
        rw [he] at h ⊢
        cases fuel with
        | zero => omega
        | succ f =>
          have hf : (escapeList s).length < f := by
            simp only [List.length_append, List.length_cons] at h; omega
          simp only [List.cons_append, List.append_assoc, List.nil_append]
          simp [parseStringBody, unescapeChar, ih f rest hf]
      · by_cases h3 : c = '\n'
        · subst h3
          have he : escapeChar '\n' = ['\\', 'n'] := by decide
          rw [he] at h ⊢
          cases fuel with
          | zero => omega
          | succ f =>
            have hf : (escapeList s).length < f := by
              simp only [List.length_append, List.length_cons] at h; omega
            simp only [List.cons_append, List.append_assoc, List.nil_append]
            simp [parseStringBody, unescapeChar, ih f rest hf]
        · have he : escapeChar c = [c] := by simp [escapeChar, h1, h2, h3]
          rw [he] at h ⊢
          cases fuel with
          | zero => omega
          | succ f =>
            have hf : (escapeList s).length < f := by
              simp only [List.length_append, List.length_cons] at h; omega
            simp only [List.cons_append, List.append_assoc, List.nil_append]
            simp [parseStringBody, h1, h2, h3, ih f rest hf]

theorem parseVal_quote (s : List Char) (fuel : Nat) (rest : List Char)
    (h : (escapeList s).length < fuel) :
    parseVal fuel (quoteStr s ++ rest) = some (.vstr s, rest) := by
  have hq : quoteStr s ++ rest = '"' :: (escapeList s ++ '"' :: rest) := by
    simp [quoteStr]
  rw [hq]
  simp [parseVal, parseStringBody_escape s fuel rest h]

theorem parseVal_bool (b : Bool) (fuel : Nat) (rest : List Char) :
    parseVal fuel (boolChars b ++ rest) = some (.vbool b, rest) := by
  cases b <;> simp [boolChars, trueChars, falseChars, parseVal]

theorem parseFields_last (fuel : Nat) (k v : List Char) (jv : JVal) (rest : List Char)
    (hk : (escapeList k).length < fuel + 1)
    (hv : parseVal (fuel + 1) (v ++ '}' :: rest) = some (jv, '}' :: rest)) :
    parseFields (fuel + 1) (quoteStr k ++ ':' :: (v ++ '}' :: rest)) = some ([(k, jv)], rest) := by
  have hq : quoteStr k ++ ':' :: (v ++ '}' :: rest)
      = '"' :: (escapeList k ++ '"' :: (':' :: (v ++ '}' :: rest))) := by
    simp [quoteStr]
  rw [hq]
  simp [parseFields, parseStringBody_escape k (fuel + 1) (':' :: (v ++ '}' :: rest)) hk, hv]

theorem parseFields_cons (fuel : Nat) (k v : List Char) (jv : JVal) (more : List Char)
    (hk : (escapeList k).length < fuel + 1)
    (hv : parseVal (fuel + 1) (v ++ ',' :: more) = some (jv, ',' :: more)) :
    parseFields (fuel + 1) (quoteStr k ++ ':' :: (v ++ ',' :: more))
      = (parseFields fuel more).map (fun p => ((k, jv) :: p.1, p.2)) := by
  have hq : quoteStr k ++ ':' :: (v ++ ',' :: more)
      = '"' :: (escapeList k ++ '"' :: (':' :: (v ++ ',' :: more))) := by
    simp [quoteStr]
  rw [hq]
  simp [parseFields, parseStringBody_escape k (fuel + 1) (':' :: (v ++ ',' :: more)) hk, hv]

theorem escapeList_key_mid : escapeList "message_id".toList = "message_id".toList := by decide

theorem escapeList_key_sid : escapeList "session_id".toList = "session_id".toList := by decide

theorem escapeList_key_content : escapeList "content".toList = "content".toList := by decide

theorem escapeList_key_isFinal : escapeList "is_final".toList = "is_final".toList := by decide

theorem parseFields_chatBody (r : ChatResponse) (rest : List Char) (fuel : Nat)
    (h : (escapeList r.messageId).length + (escapeList r.sessionId).length +
         (escapeList r.content).length + 40 < fuel) :
    parseFields fuel (chatBody r ++ rest) = some (chatFields r, rest) := by
  obtain ⟨f, rfl⟩ : ∃ f, fuel = f + 4 := ⟨fuel - 4, by omega⟩
  have hshape : chatBody r ++ rest =
      quoteStr "message_id".toList ++ ':' :: (quoteStr r.messageId ++ ',' ::
        (quoteStr "session_id".toList ++ ':' :: (quoteStr r.sessionId ++ ',' ::
          (quoteStr "content".toList ++ ':' :: (quoteStr r.content ++ ',' ::
            (quoteStr "is_final".toList ++ ':' :: (boolChars r.isFinal ++ '}' :: rest))))))) := by
    simp [chatBody, List.append_assoc]
  rw [hshape]
  have hk1 : (escapeList "message_id".toList).length < f + 4 := by
    rw [escapeList_key_mid]; simp; omega
  have hk2 : (escapeList "session_id".toList).length < f + 3 := by
    rw [escapeList_key_sid]; simp; omega
  have hk3 : (escapeList "content".toList).length < f + 2 := by
    rw [escapeList_key_content]; simp; omega
  have hk4 : (escapeList "is_final".toList).length < f + 1 := by
    rw [escapeList_key_isFinal]; simp; omega
  rw [parseFields_cons (f + 3) _ _ _ _ hk1
        (parseVal_quote r.messageId (f + 4) _ (by omega)),
      parseFields_cons (f + 2) _ _ _ _ hk2
        (parseVal_quote r.sessionId (f + 3) _ (by omega)),
      parseFields_cons (f + 1) _ _ _ _ hk3
        (parseVal_quote r.content (f + 2) _ (by omega)),
      parseFields_last f _ _ _ _ hk4
        (parseVal_bool r.isFinal (f + 1) ('}' :: rest))]
  simp [chatFields]

theorem chatBody_length (r : ChatResponse) :
    (chatBody r).length = (escapeList r.messageId).length + (escapeList r.sessionId).length +
      (escapeList r.content).length + (boolChars r.isFinal).length + 57 := by
  have e1 : (escapeList ['m', 'e', 's', 's', 'a', 'g', 'e', '_', 'i', 'd']).length = 10 := by
    decide
  have e2 : (escapeList ['s', 'e', 's', 's', 'i', 'o', 'n', '_', 'i', 'd']).length = 10 := by
    decide
  have e3 : (escapeList ['c', 'o', 'n', 't', 'e', 'n', 't']).length = 7 := by decide
  have e4 : (escapeList ['i', 's', '_', 'f', 'i', 'n', 'a', 'l']).length = 8 := by decide
  simp [chatBody, quoteStr, e1, e2, e3, e4]
  omega

theorem clientParse_marshalChat (r : ChatResponse) :
    clientParseFrame (marshalChat r) = some (chatFields r) := by
  have hlen : (escapeList r.messageId).length + (escapeList r.sessionId).length +
      (escapeList r.content).length + 40 < (chatBody r).length + 1 := by
    have hb : 4 ≤ (boolChars r.isFinal).length := by
      cases r.isFinal <;> decide
    have := chatBody_length r
    omega
  have hparse := parseFields_chatBody r [] ((chatBody r).length + 1) hlen
  rw [List.append_nil] at hparse
  simp [clientParseFrame, parseJson, marshalChat, hparse, allWs]

theorem contentOf_chatFields (r : ChatResponse) :
    contentOf (chatFields r) = some r.content := rfl

theorem flushFrame_singleton (m : List Char) : flushFrame [m] = m := by
  simp [flushFrame, List.intersperse]

/-- With one WebSocket message per flush, the client reconstructs exactly
the fragment payloads, in emission order. -/
theorem pipeline_one_by_one (sid mid : List Char) (frags : List PyFragment) :
    deliveredContents (writePumpFrames (singletonBatches
        (handleMessageAll (frags.map (fragmentFrame sid mid)))))
      = frags.map (·.chunk) := by
  induction frags with
  | nil => rfl
  | cons f fs ih =>
    simp only [List.map_cons, handleMessageAll, singletonBatches, writePumpFrames,
      deliveredContents, clientMessages] at ih ⊢
    rw [List.filterMap_cons, flushFrame_singleton]
    have hp : clientParseFrame (marshalRecv (streamRecv (fragmentFrame sid mid f)))
        = some (chatFields { messageId := mid, sessionId := sid,
                             content := f.chunk, isFinal := f.isFinal }) := by
      simp [streamRecv, fragmentFrame, marshalRecv, clientParse_marshalChat]
    rw [hp, List.filterMap_cons, contentOf_chatFields]
    simpa using ih

/-! ## Hub registry lemmas -/

theorem unregisterStep_not_present (st : HubState) (cid : Nat)
    (h : st.clients.any (fun c => c.id == cid) = false) :
    unregisterStep st cid = st := by
  simp [unregisterStep, h]

theorem any_eq_false_of_filter_ne (l : List HubClient) (cid : Nat) :
    (l.filter (fun c => c.id != cid)).any (fun c => c.id == cid) = false := by
  rw [List.any_eq_false]
  intro c hc
  have := (List.mem_filter.mp hc).2
  simpa using this

/-! ## Claim theorems -/

/-- Claim C1: for every task, `Orchestrator.stream_chat` yields exactly one
fragment with `isFinal = true`; it is the last fragment yielded (the
synthetic `{"chunk": "", "is_final": True}` terminator) and every
fragment before it is non-final, so no fragment follows it. -/
theorem stream_chat_single_terminal (chunks : List (List Char)) :
    (stream_chat chunks).countP (fun f => f.isFinal) = 1
    ∧ (stream_chat chunks).getLast? = some { chunk := [], isFinal := true }
    ∧ ((stream_chat chunks).dropLast.all (fun f => !f.isFinal)) = true := by
  refine ⟨?_, ?_, ?_⟩
  · simp [stream_chat, List.countP_append, List.countP_map, List.countP_cons]
  · simp [stream_chat]
  · simp [stream_chat, List.dropLast_concat, List.all_map]

/-- Claim C4: an inbound frame forwarded by `readPump` carries exactly the
connection's registered `userID`/`sessionID`, and two parsed frames that
differ only in their client-supplied identity fields produce identical
forwarded requests. -/
theorem inbound_identity_stamping (userID sessionID : String) (req : PbChatRequest) :
    (stampRequest userID sessionID req).userId = userID
    ∧ (stampRequest userID sessionID req).sessionId = sessionID
    ∧ ∀ req2 : PbChatRequest, req.content = req2.content →
        req.messageType = req2.messageType → req.metadata = req2.metadata →
        stampRequest userID sessionID req = stampRequest userID sessionID req2 := by
  refine ⟨rfl, rfl, ?_⟩
  intro req2 h1 h2 h3
  cases req; cases req2
  simp_all [stampRequest]

theorem inbound_identity_stamping_witness :
    (stampRequest "alice" "s1" ⟨"evil-s", "evil-u", "hi", .text, []⟩).userId = "alice"
    ∧ stampRequest "alice" "s1" ⟨"evil-s", "evil-u", "hi", .text, []⟩
        = stampRequest "alice" "s1" ⟨"other-s", "other-u", "hi", .text, []⟩ := by
  refine ⟨(inbound_identity_stamping "alice" "s1" ⟨"evil-s", "evil-u", "hi", .text, []⟩).1, ?_⟩
  exact (inbound_identity_stamping "alice" "s1" ⟨"evil-s", "evil-u", "hi", .text, []⟩).2.2
    ⟨"other-s", "other-u", "hi", .text, []⟩ rfl rfl rfl

/-- Claim C5: unregistering the same connection twice equals unregistering
it once — the hub state (live set and close history) is unchanged by the
second call, and one unregister closes the queue at most once. -/
theorem unregister_idempotent (st : HubState) (cid : Nat) :
    unregisterStep (unregisterStep st cid) cid = unregisterStep st cid
    ∧ (unregisterStep st cid).closedIds.count cid ≤ st.closedIds.count cid + 1 := by
  constructor
  · by_cases h : st.clients.any (fun c => c.id == cid)
    · have h1 : unregisterStep st cid =
          { clients := st.clients.filter (fun c => c.id != cid),
            closedIds := st.closedIds ++ [cid] } := by
        simp [unregisterStep, h]
      rw [h1]
      exact unregisterStep_not_present _ cid (any_eq_false_of_filter_ne st.clients cid)
    · have h0 : st.clients.any (fun c => c.id == cid) = false := by
        simpa using h
      rw [unregisterStep_not_present st cid h0, unregisterStep_not_present st cid h0]
  · by_cases h : st.clients.any (fun c => c.id == cid) <;>
      simp [unregisterStep, h, List.count_append]

theorem read_error_frame_aux (st : HubState) (cid : Nat) :
    (readPumpError st cid).clients.filter (fun c => c.id != cid)
      = st.clients.filter (fun c => c.id != cid) := by
  unfold readPumpError unregisterStep
  by_cases h : st.clients.any (fun c => c.id == cid) <;>
    simp [h, List.filter_filter]

/-- Claim C8: a transport read error on connection `cid` changes the hub
state only at that connection — every other connection's membership and
queue are untouched, and no other connection's queue is closed. -/
theorem read_error_isolated (st : HubState) (cid : Nat) :
    (readPumpError st cid).clients.filter (fun c => c.id != cid)
        = st.clients.filter (fun c => c.id != cid)
    ∧ ∀ x : Nat, x ≠ cid →
        (readPumpError st cid).closedIds.count x = st.closedIds.count x := by
  refine ⟨read_error_frame_aux st cid, ?_⟩
  intro x hx
  unfold readPumpError unregisterStep
  by_cases h : st.clients.any (fun c => c.id == cid) <;>
    simp [h, List.count_append, List.count_cons, List.count_nil, hx]

theorem read_error_isolated_witness :
    (readPumpError ⟨[⟨7, "u2", "s2", [], 256⟩], [3]⟩ 5).clients.filter (fun c => c.id != 5)
        = ([⟨7, "u2", "s2", [], 256⟩] : List HubClient).filter (fun c => c.id != 5)
    ∧ (readPumpError ⟨[⟨7, "u2", "s2", [], 256⟩], [3]⟩ 5).closedIds.count 3
        = ([3] : List Nat).count 3 :=
  ⟨(read_error_isolated ⟨[⟨7, "u2", "s2", [], 256⟩], [3]⟩ 5).1,
   (read_error_isolated ⟨[⟨7, "u2", "s2", [], 256⟩], [3]⟩ 5).2 3 (by decide)⟩

/-- Claim C9: a WebSocket upgrade request with an empty `user_id` or
`session_id` is rejected with HTTP 400 before any client is created or
registered; with both parameters non-empty (and a successful upgrade) a
client carrying exactly those identifiers is registered. -/
theorem upgrade_identity_validation (user_id session_id : String) :
    ((user_id = "" ∨ session_id = "") → ∀ up : Bool,
        handleWebSocket user_id session_id up
          = .rejected 400 "Missing user_id or session_id")
    ∧ (user_id ≠ "" → session_id ≠ "" →
        handleWebSocket user_id session_id true = .registered user_id session_id) := by
  constructor
  · intro h up
    simp [handleWebSocket, h]
  · intro h1 h2
    simp [handleWebSocket, h1, h2]

theorem upgrade_identity_validation_witness :
    handleWebSocket "" "s1" true = .rejected 400 "Missing user_id or session_id"
    ∧ handleWebSocket "alice" "s1" true = .registered "alice" "s1" :=
  ⟨(upgrade_identity_validation "" "s1").1 (Or.inl rfl) true,
   (upgrade_identity_validation "alice" "s1").2 (by decide) (by decide)⟩

/-- Claim C10: on both REST chat paths the handler overwrites only the
user identity with the JWT claims value; the session identifier, content,
message type and metadata are forwarded exactly as supplied in the
request body (the streaming path encodes the message type string into
the protobuf enum). -/
theorem rest_identity_overwrite (claimsUserID : String) (body : ApiChatRequest) :
    chatHandlerForward claimsUserID body
      = { sessionId := body.sessionId, userId := claimsUserID, content := body.content,
          messageType := body.messageType, metadata := body.metadata }
    ∧ streamChatHandlerForward claimsUserID body
      = { sessionId := body.sessionId, userId := claimsUserID, content := body.content,
          messageType := msgTypeToEnum body.messageType, metadata := body.metadata } :=
  ⟨rfl, rfl⟩

/-- Claim C2 (counterexample to the claim as stated): the hub's broadcast
delivery is not session-targeted.  In a hub holding two empty-queue
connections that belong to two different sessions, one broadcast enqueues
the frame on both — so whichever single session the frame was targeted
at, a connection of another session received it. -/
theorem broadcast_crosses_sessions :
    (broadcastStep ⟨[⟨0, "u1", "s1", [], 256⟩, ⟨1, "u2", "s2", [], 256⟩], []⟩ ['x']).clients
      = [⟨0, "u1", "s1", [['x']], 256⟩, ⟨1, "u2", "s2", [['x']], 256⟩]
    ∧ ("s1" : String) ≠ "s2" := by
  constructor
  · rfl
  · decide

/-- Claim C2 (amended): a frame delivered through the hub's broadcast
channel is enqueued onto the outbound queue of every live connection
(regardless of session) whose queue is not full, and exactly the
connections whose queues were full are closed and removed from the live
set; delivery never blocks on a full queue. -/
theorem broadcast_backpressure_policy (st : HubState) (m : List Char)
    (hnodup : (st.clients.map (·.id)).Nodup) (c : HubClient) (hc : c ∈ st.clients) :
    (c.queue.length < c.capacity →
        { c with queue := c.queue ++ [m] } ∈ (broadcastStep st m).clients
        ∧ c.id ∉ (broadcastStep st m).closedIds.drop st.closedIds.length)
    ∧ (¬ c.queue.length < c.capacity →
        c.id ∉ ((broadcastStep st m).clients.map (·.id))
        ∧ c.id ∈ (broadcastStep st m).closedIds) := by
  constructor
  · intro hroom
    constructor
    · simp only [broadcastStep]
      exact List.mem_filterMap.mpr ⟨c, hc, by simp [hroom]⟩
    · simp only [broadcastStep, List.drop_left]
      intro hmem
      obtain ⟨c', hc', hid⟩ := List.mem_map.mp hmem
      have hc'mem : c' ∈ st.clients := (List.mem_filter.mp hc').1
      have hfull' : ¬ c'.queue.length < c'.capacity := by
        have := (List.mem_filter.mp hc').2
        simpa using this
      have : c' = c := List.inj_on_of_nodup_map hnodup hc'mem hc hid
      rw [this] at hfull'
      exact hfull' hroom
  · intro hfull
    constructor
    · intro hmem
      obtain ⟨b, hb, hbid⟩ := List.mem_map.mp hmem
      simp only [broadcastStep] at hb
      obtain ⟨a, ha, hfa⟩ := List.mem_filterMap.mp hb
      by_cases hroom : a.queue.length < a.capacity
      · rw [if_pos hroom] at hfa
        have hba : b.id = a.id := by
          cases hfa; rfl
        have : a = c := List.inj_on_of_nodup_map hnodup ha hc (hba ▸ hbid)
        rw [this] at hroom
        exact hfull hroom
      · rw [if_neg hroom] at hfa
        cases hfa
    · simp only [broadcastStep]
      refine List.mem_append_right _ (List.mem_map.mpr ⟨c, ?_, rfl⟩)
      refine List.mem_filter.mpr ⟨hc, by simpa using hfull⟩

theorem broadcast_backpressure_policy_witness :
    (⟨2, "u3", "s3", [['q']], 1⟩ : HubClient) ∈
        (⟨[⟨2, "u3", "s3", [['q']], 1⟩], []⟩ : HubState).clients
    ∧ ¬ (⟨2, "u3", "s3", [['q']], 1⟩ : HubClient).queue.length <
        (⟨2, "u3", "s3", [['q']], 1⟩ : HubClient).capacity
    ∧ (2 : Nat) ∈ (broadcastStep ⟨[⟨2, "u3", "s3", [['q']], 1⟩], []⟩ ['x']).closedIds :=
  ⟨by decide, by decide,
   ((broadcast_backpressure_policy ⟨[⟨2, "u3", "s3", [['q']], 1⟩], []⟩ ['x']
      (by decide) ⟨2, "u3", "s3", [['q']], 1⟩ (by decide)).2 (by decide)).2⟩

/-- Claim C6: `_determine_agents` is a deterministic function of the
content that always starts with the orchestrator role, always ends with
the writer role, and includes the researcher / code / image agent exactly
when the corresponding classification predicate holds; the input
"write a function to reverse a string" selects
`[orchestrator, code, writer]`. -/
theorem agent_selection (content : String) :
    (determineAgents content).head? = some .orchestrator
    ∧ (determineAgents content).getLast? = some .writer
    ∧ (AgentType.researcher ∈ determineAgents content ↔ isResearchQuery content = true)
    ∧ (AgentType.code ∈ determineAgents content ↔ isCodeQuery content = true)
    ∧ (AgentType.image ∈ determineAgents content ↔ isImageQuery content = true)
    ∧ determineAgents "write a function to reverse a string"
        = [.orchestrator, .code, .writer] := by
  refine ⟨?_, ?_, ?_, ?_, ?_, by decide⟩ <;>
    (by_cases h1 : isResearchQuery content <;>
      by_cases h2 : isCodeQuery content <;>
        by_cases h3 : isImageQuery content <;>
          simp [determineAgents, h1, h2, h3])

/-- Claim C7 (counterexample to the claim as stated): on a heartbeat
frame (no chat payload) `Recv` returns a nil chat pointer, which
`handleMessage` marshals to the JSON literal `null` and enqueues — so a
message derived from the heartbeat frame is enqueued for delivery. -/
theorem heartbeat_enqueued_by_hub :
    handleMessageEnqueue [] ⟨['s'], none, true⟩ = [nullChars]
    ∧ nullChars ≠ [] := by
  constructor
  · rfl
  · decide

/-- Claim C7 (amended): a heartbeat frame is not filtered by the hub —
its nil chat payload is marshalled as the JSON literal `null` and
forwarded — but the client-side message parser rejects any frame that is
not a JSON object, so no content message is derived from it on the
client's message stream, while a non-heartbeat chat frame decodes to its
chat payload and is delivered normally. -/
theorem heartbeat_dropped_client_side (r : StreamResponse) :
    (r.chat = none → clientParseFrame (marshalRecv (streamRecv r)) = none)
    ∧ ∀ c : ChatResponse, r.chat = some c →
        clientParseFrame (marshalRecv (streamRecv r)) = some (chatFields c) := by
  constructor
  · intro h
    have hnull : clientParseFrame nullChars = none := by decide
    simp [streamRecv, h, marshalRecv, hnull]
  · intro c h
    simp [streamRecv, h, marshalRecv, clientParse_marshalChat]

theorem heartbeat_dropped_client_side_witness :
    clientParseFrame (marshalRecv (streamRecv ⟨['s'], none, true⟩)) = none
    ∧ clientParseFrame (marshalRecv (streamRecv
        ⟨['s'], some ⟨['m'], ['s'], ['h', 'i'], true⟩, false⟩))
      = some (chatFields ⟨['m'], ['s'], ['h', 'i'], true⟩) :=
  ⟨(heartbeat_dropped_client_side ⟨['s'], none, true⟩).1 rfl,
   (heartbeat_dropped_client_side ⟨['s'], some ⟨['m'], ['s'], ['h', 'i'], true⟩, false⟩).2
     ⟨['m'], ['s'], ['h', 'i'], true⟩ rfl⟩

/-- Claim C3 (the code at the failing input): for the two-fragment task
`["a", ""]`, when both marshalled fragments are pending at one write-pump
wake-up they are coalesced into a single newline-joined WebSocket frame,
which the client's single-document `jsonDecode` rejects — the delivered
content is empty instead of `["a", ""]`; with one message per flush the
same queue round-trips intact. -/
theorem writePump_coalescing_loses_fragments :
    deliveredContents (writePumpFrames [handleMessageAll
        ([⟨['a'], false⟩, ⟨[], true⟩].map (fragmentFrame ['s'] ['m']))]) = []
    ∧ deliveredContents (writePumpFrames (singletonBatches (handleMessageAll
        ([⟨['a'], false⟩, ⟨[], true⟩].map (fragmentFrame ['s'] ['m'])))))
      = [['a'], []] := by
  constructor
  · decide
  · decide

/-- The coalesced WebSocket frame built from two marshalled fragments is
rejected outright by the client's single-document parser. -/
theorem coalesced_frame_rejected :
    clientParseFrame (flushFrame [marshalChat ⟨['m'], ['s'], ['a'], false⟩,
      marshalChat ⟨['m'], ['s'], [], true⟩]) = none := by
  decide

end NeuronAI
